import Mathlib

/-!
# Verification of the rxooks hooks (`src/index.ts`)

Shallow embedding of the three hooks of the rxooks library:

* `useObservableState` — an external mutable cell with a replay-on-subscribe
  observable, a setter (direct values, transformation functions, and
  asynchronously-resolving transformations) and a synchronous getter
  (`src/index.ts` lines 87–125), together with the helpers `isPromiseLike`
  (lines 127–129) and `isFunction` (lines 131–133);
* `useSubscription` — `useEffect` with an `{ unsubscribe() }` handle
  (lines 19–27);
* `useAsyncValues` — React state fed by a subscription (lines 67–75).

JavaScript dynamics (`typeof`, property access on `null`, first-class
functions) are modelled by the inductive `JSVal`; function values are
carried as syntax (`vFuncConst`, `vFuncId`) with an explicit application
function, which is enough to express every behaviour the setter
distinguishes (the setter only ever applies a function to the current
value).  React's effect/state scheduling and the RxJS safe-subscriber are
not part of this repository; they are modelled from the spec where needed,
each such definition marked `Modelled from the spec:`.
-/

namespace Rxooks

/-- A JavaScript value, as far as the library's own code distinguishes
values: `null`, `undefined`, primitives, plain objects (with an identity
`id` and a flag telling whether their `then` property is callable — the
only thing `isPromiseLike` inspects), and function values.  Function
values are syntax: `vFuncConst v` is `(_) => v`, `vFuncId` is `(p) => p`;
`applyFn` gives their semantics. -/
inductive JSVal : Type where
  | vNull : JSVal
  | vUndef : JSVal
  | vBool : Bool → JSVal
  | vNum : Int → JSVal
  | vStr : String → JSVal
  | vObj : Nat → Bool → JSVal
  | vFuncConst : JSVal → JSVal
  | vFuncId : JSVal
deriving DecidableEq, Repr

namespace JSVal

/-- JavaScript `typeof`.  Note `typeof null === 'object'` (the classic
quirk) and `typeof f === 'function'` for functions. -/
def jsTypeof : JSVal → String
  | vNull => "object"
  | vUndef => "undefined"
  | vBool _ => "boolean"
  | vNum _ => "number"
  | vStr _ => "string"
  | vObj _ _ => "object"
  | vFuncConst _ => "function"
  | vFuncId => "function"

/-- Helper `isFunction` from `src/index.ts` lines 131–133:
`typeof value === 'function'`. -/
def isFunction (value : JSVal) : Bool :=
  jsTypeof value = "function"

/-- Reading `value.then`, fallible as in JavaScript: property access on
`null` or `undefined` throws a `TypeError`.  On an object whose `then` is
callable the result is some callable (its behaviour lives in the
pending/resolve events of the cell machine, so a canonical function value
stands for it); on everything else `then` is `undefined`. -/
def getThen : JSVal → Except String JSVal
  | vNull => .error "TypeError"
  | vUndef => .error "TypeError"
  | vObj _ true => .ok vFuncId
  | vObj _ false => .ok vUndef
  | _ => .ok vUndef

/-- Helper `isPromiseLike` from `src/index.ts` lines 127–129:
`typeof value === 'object' && isFunction(value.then)`, with `&&`
short-circuiting (so `.then` is only read when the `typeof` test passed —
which `null` passes). -/
def isPromiseLike (value : JSVal) : Except String Bool :=
  if jsTypeof value = "object" then do
    let t ← getThen value
    pure (isFunction t)
  else
    pure false

/-- Application of a function value to an argument. -/
def applyFn : JSVal → JSVal → JSVal
  | vFuncConst v, _ => v
  | vFuncId, p => p
  | _, _ => vUndef

/-- The identity (`id` field) of a thenable object; used to connect a
registered `result.then(setValue)` continuation to the later resolution
event of that same thenable. -/
def thenableId : JSVal → Nat
  | vObj i _ => i
  | _ => 0

end JSVal

open JSVal

/-! ## The mutable cell of `useObservableState` (lines 87–125)

The closure state of one `useObservableState` cell: `currentValue`, the
`subscribers` set (a JavaScript `Set` iterates in insertion order, so a
duplicate-free list), plus observation logs: `notifs` records every
`subscriber.next(...)` call as a `(subscriber id, value)` pair, `pending`
records the promise ids whose `then(setValue)` continuation is registered
and not yet settled, and `renders` counts invocations of any
host-framework render-state primitive — the cell's code never performs
one (`useObservableState` uses only `useRef`). -/
structure Cell : Type where
  currentValue : JSVal
  subscribers : List Nat
  notifs : List (Nat × JSVal)
  pending : List Nat
  renders : Nat
deriving DecidableEq, Repr

/-- The cell as first created: `let currentValue = initialValue`, empty
subscriber set, nothing observed yet. -/
def mkCell (initialValue : JSVal) : Cell :=
  { currentValue := initialValue
    subscribers := []
    notifs := []
    pending := []
    renders := 0 }

/-- The getter `getValue` from line 113: `() => currentValue`. -/
def getValue (c : Cell) : JSVal :=
  c.currentValue

/-- The setter `setValue` from lines 97–111, as a fuelled recursion.

```
const setValue = (value) => {
  if (isFunction(value)) {
    const result = value(currentValue);
    if (isPromiseLike(result)) { result.then(setValue); }
    else { setValue(result); }
  } else {
    currentValue = value;
    for (const subscriber of subscribers) { subscriber.next(value); }
  }
};
```

`result.then(setValue)` registers a continuation on the thenable, modelled
by adding its id to `pending`; the resolution itself is a separate event
(`CEvent.resolve`).  `isPromiseLike` can throw (when `result` is `null`),
hence the `Except`; the recursion `setValue(result)` can diverge in
JavaScript (a function returning a function forever), hence the fuel:
`none` is divergence, `some (.error e)` a thrown exception, `some (.ok c)`
normal return. -/
def setValueF : Nat → JSVal → Cell → Option (Except String Cell)
  | 0, _, _ => none
  | fuel + 1, value, c =>
    if isFunction value then
      let result := applyFn value c.currentValue
      match isPromiseLike result with
      | .error e => some (.error e)
      | .ok true => some (.ok { c with pending := thenableId result :: c.pending })
      | .ok false => setValueF fuel result c
    else
      some (.ok { c with
        currentValue := value
        notifs := c.notifs ++ c.subscribers.map (fun s => (s, value)) })

/-- External events on one cell:
* `setCall v` — application code calls the setter with `v`;
* `resolve pid v` — a pending thenable `pid` fulfils with `v`, running the
  registered `setValue` continuation;
* `reject pid` — a pending thenable `pid` rejects: `then` was given no
  rejection handler (line 101 passes only `setValue`), so the continuation
  is dropped and nothing runs (unhandled rejection);
* `subscribe sid` — the observable (lines 115–119) gets a new subscriber:
  `subscriber.next(currentValue)` first, then `subscribers.add`;
* `unsubscribe sid` — the returned teardown: `subscribers.delete`. -/
inductive CEvent : Type where
  | setCall : JSVal → CEvent
  | resolve : Nat → JSVal → CEvent
  | reject : Nat → CEvent
  | subscribe : Nat → CEvent
  | unsubscribe : Nat → CEvent
deriving DecidableEq, Repr

/-- One event step on the cell.  `resolve` on a pid with no registered
continuation runs nothing (a promise settles once; stray events are
no-ops), otherwise it removes one registration and runs `setValue` on the
resolved value. -/
def stepC (fuel : Nat) (e : CEvent) (c : Cell) : Option (Except String Cell) :=
  match e with
  | .setCall v => setValueF fuel v c
  | .resolve pid v =>
    if pid ∈ c.pending then
      setValueF fuel v { c with pending := c.pending.erase pid }
    else
      some (.ok c)
  | .reject pid =>
    some (.ok { c with pending := c.pending.erase pid })
  | .subscribe sid =>
    some (.ok { c with
      notifs := c.notifs ++ [(sid, c.currentValue)]
      subscribers :=
        if sid ∈ c.subscribers then c.subscribers else c.subscribers ++ [sid] })
  | .unsubscribe sid =>
    some (.ok { c with subscribers := c.subscribers.erase sid })

/-- Run a sequence of events; an exception or divergence stops the run. -/
def runC (fuel : Nat) : List CEvent → Cell → Option (Except String Cell)
  | [], c => some (.ok c)
  | e :: evs, c =>
    match stepC fuel e c with
    | some (.ok c') => runC fuel evs c'
    | some (.error err) => some (.error err)
    | none => none

/-- The values delivered to subscriber `sid`, in delivery order. -/
def notifValuesFor (sid : Nat) (c : Cell) : List JSVal :=
  (c.notifs.filter (fun p => p.1 = sid)).map (fun p => p.2)

/-! ## The lifecycle binder: `useSubscription` (lines 19–27)

`useSubscription(subscribe, deps)` is `useEffect(() => { const s =
subscribe(); return () => s.unsubscribe(); }, deps)`.  React itself is not
part of this repository, so its effect scheduling is modelled from the
spec (§4.1, §3): the setup runs on first activation and whenever the
dependency list changes by shallow position-wise comparison of the
previous and current list; before each re-run — and on final unmount —
the retained teardown runs.  The handles returned by successive setup
calls are numbered 0, 1, 2, …; the observable history is the sequence of
`setup k` / `unsub k` events, where `unsub k` is the
`subscription.unsubscribe()` call on handle `k`. -/

/-- Modelled from the spec: position-wise comparison of dependency lists
(spec §3, "equality is shallow, position-wise identity/equality comparison
between the previous and current list"; a length change is treated as
unequal, the policy spec §9 leaves to the implementer). -/
def depsEqual (prev next : List JSVal) : Bool :=
  prev = next

/-- A setup (`subscribe`) call returning handle `k`, or an
`unsubscribe` call on handle `k`. -/
inductive SubEvent : Type where
  | setup : Nat → SubEvent
  | unsub : Nat → SubEvent
deriving DecidableEq, Repr

/-- The effect slot of one component instance using `useSubscription`:
the previously seen dependency list, the retained subscription handle,
the next fresh handle number, and the event history. -/
structure EffState : Type where
  prevDeps : Option (List JSVal)
  current : Option Nat
  nextId : Nat
  events : List SubEvent
deriving DecidableEq, Repr

/-- The effect slot before the first render. -/
def initEff : EffState :=
  { prevDeps := none, current := none, nextId := 0, events := [] }

/-- Modelled from the spec: one committed render with dependency list
`deps` (spec §4.1).  If this is the first activation or the list changed,
the retained handle's teardown runs (`subscription.unsubscribe()`, from
line 25 of the source) and then `subscribe` runs, returning the next
fresh handle (line 24); otherwise nothing happens. -/
def renderStep (deps : List JSVal) (s : EffState) : EffState :=
  let rerun :=
    match s.prevDeps with
    | none => true
    | some pd => !depsEqual pd deps
  if rerun then
    { prevDeps := some deps
      current := some s.nextId
      nextId := s.nextId + 1
      events := s.events
        ++ (match s.current with
            | some h => [SubEvent.unsub h]
            | none => [])
        ++ [SubEvent.setup s.nextId] }
  else
    { s with prevDeps := some deps }

/-- Modelled from the spec: final unmount runs the retained teardown. -/
def unmountStep (s : EffState) : EffState :=
  { s with
    current := none
    events := s.events
      ++ (match s.current with
          | some h => [SubEvent.unsub h]
          | none => []) }

/-- The whole life of a component instance: a sequence of committed
renders with their dependency lists, then unmount. -/
def runLifecycle (ds : List (List JSVal)) : EffState :=
  unmountStep (ds.foldl (fun s d => renderStep d s) initEff)

/-- The number of dependency-list changes along renders `ds` when the
previously committed list was `prev`. -/
def countChangesFrom (prev : List JSVal) : List (List JSVal) → Nat
  | [] => 0
  | d :: ds => (if depsEqual prev d then 0 else 1) + countChangesFrom d ds

/-- The number of adjacent dependency-list changes along successive
renders. -/
def countChanges : List (List JSVal) → Nat
  | [] => 0
  | d :: ds => countChangesFrom d ds

/-- The event trace the claim prescribes for `n` dependency changes,
starting from retained handle `h`: for each change, release the retained
handle exactly once and then set up the next one; at the end release the
last handle (final teardown). -/
def claimTail (h : Nat) : Nat → List SubEvent
  | 0 => [SubEvent.unsub h]
  | n + 1 => SubEvent.unsub h :: SubEvent.setup (h + 1) :: claimTail (h + 1) n

/-- The full event trace the claim prescribes: initial setup, then the
release/resetup pair for every change, then the final teardown. -/
def claimTrace (nChanges : Nat) : List SubEvent :=
  SubEvent.setup 0 :: claimTail 0 nChanges

/-! ## `useAsyncValues` (lines 67–75)

```
const [value, setValue] = useState(config?.initialValue);
useSubscription(() => from(observed()).subscribe(setValue), deps);
return value;
```

Each (re)subscription `k` attaches `setValue` (the React state setter) as
the observer of the `k`-th normalized stream.  Teardown calls
`subscription.unsubscribe()`.  The RxJS safe subscriber is not code of
this repository; it is modelled from the spec (§5: "the teardown must
prevent further delivery, even if the old async source is still running in
the background"): an emission of source `k` reaches `setValue` only while
subscription `k` is not closed.  React's `useState` is modelled from the
spec (§6: "persist a value across renders, trigger re-render on change"):
a single persistent `value` slot overwritten by each delivered emission —
and by nothing else; in particular a resubscription does not reset it.

`written` is a ghost log of every value actually delivered to `setValue`,
in delivery order, used to state what the hook renders. -/
structure AsyncSt : Type where
  value : JSVal
  prevDeps : Option (List JSVal)
  active : Option Nat
  nextSub : Nat
  closed : List Nat
  written : List JSVal
deriving DecidableEq, Repr

/-- The hook's state right after the mounting render with configuration
`initialValue` (`undefined` when no `initialValue` was configured), the
mount effect committed: subscription 0 to the first normalized stream is
open.  `useState(config?.initialValue)` seeds the value slot. -/
def initAsync (initialValue : JSVal) (deps : List JSVal) : AsyncSt :=
  { value := initialValue
    prevDeps := some deps
    active := some 0
    nextSub := 1
    closed := []
    written := [] }

/-- Events in the life of a `useAsyncValues` hook after mounting:
a committed re-render with a dependency list, an emission `(k, v)` of the
`k`-th normalized stream (a stream emission, a promise resolution, or an
async-iterator step — all reach the subscriber the same way), and
unmount. -/
inductive AEvent : Type where
  | render : List JSVal → AEvent
  | emit : Nat → JSVal → AEvent
  | unmount : AEvent
deriving DecidableEq, Repr

/-- One event step of the `useAsyncValues` machine.  A re-render whose
dependency list changed closes the active subscription and opens a fresh
one (`useSubscription` teardown then setup); an emission of source `k` is
delivered to `setValue` only when subscription `k` exists and is not
closed (Modelled from the spec: the closed safe subscriber drops `next`
calls); unmount closes the active subscription. -/
def stepA (e : AEvent) (st : AsyncSt) : AsyncSt :=
  match e with
  | .render deps =>
    let rerun :=
      match st.prevDeps with
      | none => true
      | some pd => !depsEqual pd deps
    if rerun then
      { st with
        prevDeps := some deps
        active := some st.nextSub
        nextSub := st.nextSub + 1
        closed :=
          match st.active with
          | some k => k :: st.closed
          | none => st.closed }
    else
      { st with prevDeps := some deps }
  | .emit k v =>
    if k < st.nextSub ∧ k ∉ st.closed then
      { st with value := v, written := st.written ++ [v] }
    else
      st
  | .unmount =>
    { st with
      active := none
      closed :=
        match st.active with
        | some k => k :: st.closed
        | none => st.closed }

/-- Run a sequence of events on the `useAsyncValues` machine. -/
def runA (evs : List AEvent) (st : AsyncSt) : AsyncSt :=
  evs.foldl (fun s e => stepA e s) st

/-- Whether an event is an emission of source `k`. -/
def isEmitOf (k : Nat) : AEvent → Bool
  | .emit j _ => j = k
  | _ => false

/-! ## Theorems -/

/-- Unfolding lemma: a direct (non-function) set stores the value and
broadcasts it. -/
theorem setValueF_direct (n : Nat) (v : JSVal) (c : Cell)
    (h : isFunction v = false) :
    setValueF (n + 1) v c = some (.ok { c with
      currentValue := v
      notifs := c.notifs ++ c.subscribers.map (fun s => (s, v)) }) := by
  simp [setValueF, h]

/-- Unfolding lemma: a functional set whose transformation yields a
thenable registers the continuation and changes nothing else. -/
theorem setValueF_thenable (n : Nat) (f : JSVal) (c : Cell) (pid : Nat)
    (hf : isFunction f = true)
    (hres : applyFn f c.currentValue = vObj pid true) :
    setValueF (n + 1) f c
      = some (.ok { c with pending := pid :: c.pending }) := by
  have hpl : isPromiseLike (vObj pid true) = .ok true := rfl
  simp [setValueF, hf, hres, hpl, thenableId]

/-- C7: for every non-function value `v`, calling the setter with `v`
lands in the `else` branch of `setValue` (lines 105–110), which assigns
`currentValue = value` and broadcasts; the getter (`() => currentValue`)
then returns exactly `v`.  And before any set call the getter returns the
initial value the cell was constructed with. -/
theorem set_then_get_returns_value (c : Cell) (v : JSVal) (n : Nat)
    (h : isFunction v = false) :
    (stepC (n + 1) (CEvent.setCall v) c
      = some (.ok { c with
          currentValue := v
          notifs := c.notifs ++ c.subscribers.map (fun s => (s, v)) })
    ∧ getValue { c with
          currentValue := v
          notifs := c.notifs ++ c.subscribers.map (fun s => (s, v)) } = v)
    ∧ ∀ i : JSVal, getValue (mkCell i) = i := by
  refine ⟨⟨?_, rfl⟩, fun i => rfl⟩
  simp [stepC, setValueF, h]

/-- Witness for C7: set `7` on a fresh cell initialised with `0`, then
read it back. -/
theorem set_then_get_returns_value_witness :
    isFunction (vNum 7) = false
    ∧ ((stepC 1 (CEvent.setCall (vNum 7)) (mkCell (vNum 0))
        = some (.ok { mkCell (vNum 0) with
            currentValue := vNum 7
            notifs := (mkCell (vNum 0)).notifs
              ++ (mkCell (vNum 0)).subscribers.map (fun s => (s, vNum 7)) })
      ∧ getValue { mkCell (vNum 0) with
            currentValue := vNum 7
            notifs := (mkCell (vNum 0)).notifs
              ++ (mkCell (vNum 0)).subscribers.map (fun s => (s, vNum 7)) }
          = vNum 7)
      ∧ ∀ i : JSVal, getValue (mkCell i) = i) :=
  ⟨by decide, set_then_get_returns_value (mkCell (vNum 0)) (vNum 7) 0 (by decide)⟩

/-- C6: a direct (non-function) set call broadcasts the new value to
exactly the subscribers active at the time of the call — one
`subscriber.next(value)` per member of the set, in iteration order — and
does nothing else: the subscriber set, the pending continuations and the
host-framework render count are untouched (the cell's code contains no
render-state primitive, so a set call never triggers a re-render). -/
theorem set_broadcasts_and_never_rerenders (c : Cell) (v : JSVal) (n : Nat)
    (h : isFunction v = false) :
    ∃ c', stepC (n + 1) (CEvent.setCall v) c = some (.ok c')
      ∧ c'.notifs = c.notifs ++ c.subscribers.map (fun s => (s, v))
      ∧ c'.subscribers = c.subscribers
      ∧ c'.pending = c.pending
      ∧ c'.renders = c.renders
      ∧ c'.currentValue = v := by
  exact ⟨{ c with
      currentValue := v
      notifs := c.notifs ++ c.subscribers.map (fun s => (s, v)) },
    setValueF_direct n v c h, rfl, rfl, rfl, rfl, rfl⟩

/-- Witness for C6: a cell with two active subscribers receives a direct
set of `3`; both are notified and nothing re-renders. -/
theorem set_broadcasts_and_never_rerenders_witness :
    isFunction (vNum 3) = false
    ∧ ∃ c', stepC 1 (CEvent.setCall (vNum 3))
          { currentValue := vNum 0, subscribers := [4, 9], notifs := [],
            pending := [], renders := 0 } = some (.ok c')
      ∧ c'.notifs = [] ++ [4, 9].map (fun s => (s, vNum 3))
      ∧ c'.subscribers = [4, 9]
      ∧ c'.pending = []
      ∧ c'.renders = 0
      ∧ c'.currentValue = vNum 3 :=
  ⟨by decide,
    set_broadcasts_and_never_rerenders
      { currentValue := vNum 0, subscribers := [4, 9], notifs := [],
        pending := [], renders := 0 } (vNum 3) 0 (by decide)⟩

/-- Counterexample to C8 as stated: a transformation returning a
non-object (`5`, whose `typeof` is `"number"`, not `"object"`) does NOT
make the setter throw — `isPromiseLike` short-circuits on the `typeof`
test and the setter stores `5` normally.  Only `null` passes
`typeof === 'object'` among non-objects. -/
theorem transform_to_number_does_not_throw :
    stepC 2 (CEvent.setCall (vFuncConst (vNum 5))) (mkCell (vNum 0))
      = some (.ok { mkCell (vNum 0) with currentValue := vNum 5 }) := by
  rfl

/-- C8 (amended): a transformation returning `null` makes the setter
throw a `TypeError`: `typeof null === 'object'` passes the first test of
`isPromiseLike`, so the helper reads `null.then`, which throws. -/
theorem null_transform_throws_typeerror (c : Cell) (f : JSVal) (n : Nat)
    (hf : isFunction f = true) (hres : applyFn f (getValue c) = vNull) :
    stepC (n + 1) (CEvent.setCall f) c = some (.error "TypeError") := by
  simp [stepC, setValueF, hf, getValue] at *
  simp [hres, isPromiseLike, jsTypeof, getThen]

/-- Witness for C8: the transformation `(_) => null` on a fresh cell. -/
theorem null_transform_throws_typeerror_witness :
    (isFunction (vFuncConst vNull) = true
      ∧ applyFn (vFuncConst vNull) (getValue (mkCell (vNum 0))) = vNull)
    ∧ stepC 1 (CEvent.setCall (vFuncConst vNull)) (mkCell (vNum 0))
        = some (.error "TypeError") :=
  ⟨⟨by decide, by decide⟩,
    null_transform_throws_typeerror (mkCell (vNum 0)) (vFuncConst vNull) 0
      (by decide) (by decide)⟩

/-- C9: a functional set whose transformation returns a thenable that
later rejects has no observable effect at all: `result.then(setValue)`
passes no rejection handler (line 101), so the rejection drops the
registered continuation and the run ends in exactly the starting cell —
current value unchanged, no subscriber notified. -/
theorem rejected_resolution_has_no_effect (c : Cell) (f : JSVal)
    (pid : Nat) (n : Nat)
    (hf : isFunction f = true)
    (hres : applyFn f (getValue c) = vObj pid true) :
    runC (n + 1) [CEvent.setCall f, CEvent.reject pid] c = some (.ok c) := by
  simp only [getValue] at hres
  simp [runC, stepC, setValueF_thenable n f c pid hf hres]

/-- C5: a functional set whose transformation yields a thenable leaves
the current value and the notification log untouched and registers the
continuation (first conjunct: after two such calls the cell differs from
`c` only in `pending`).  Each pending resolution is applied and broadcast
at the moment it completes, independently of the other: resolving `p₁`
then `p₂` broadcasts `v₁` then `v₂` and leaves `v₂` current; resolving
`p₂` then `p₁` broadcasts `v₂` then `v₁` and leaves `v₁` current — no
queuing across the overlapping resolutions. -/
theorem pending_resolutions_independent
    (c : Cell) (f₁ f₂ : JSVal) (p₁ p₂ : Nat) (v₁ v₂ : JSVal) (n : Nat)
    (hf₁ : isFunction f₁ = true) (hf₂ : isFunction f₂ = true)
    (hr₁ : applyFn f₁ (getValue c) = vObj p₁ true)
    (hr₂ : applyFn f₂ (getValue c) = vObj p₂ true)
    (hp : p₁ ≠ p₂)
    (hv₁ : isFunction v₁ = false) (hv₂ : isFunction v₂ = false) :
    runC (n + 1) [CEvent.setCall f₁, CEvent.setCall f₂] c
      = some (.ok { c with pending := p₂ :: p₁ :: c.pending })
    ∧ runC (n + 1) [CEvent.setCall f₁, CEvent.setCall f₂,
        CEvent.resolve p₁ v₁, CEvent.resolve p₂ v₂] c
      = some (.ok { c with
          currentValue := v₂
          notifs := (c.notifs ++ c.subscribers.map (fun s => (s, v₁)))
            ++ c.subscribers.map (fun s => (s, v₂))
          pending := c.pending })
    ∧ runC (n + 1) [CEvent.setCall f₁, CEvent.setCall f₂,
        CEvent.resolve p₂ v₂, CEvent.resolve p₁ v₁] c
      = some (.ok { c with
          currentValue := v₁
          notifs := (c.notifs ++ c.subscribers.map (fun s => (s, v₂)))
            ++ c.subscribers.map (fun s => (s, v₁))
          pending := c.pending }) := by
  simp only [getValue] at hr₁ hr₂
  have h1 : stepC (n + 1) (CEvent.setCall f₁) c
      = some (.ok { c with pending := p₁ :: c.pending }) :=
    setValueF_thenable n f₁ c p₁ hf₁ hr₁
  have h2 : stepC (n + 1) (CEvent.setCall f₂)
        { c with pending := p₁ :: c.pending }
      = some (.ok { c with pending := p₂ :: p₁ :: c.pending }) :=
    setValueF_thenable n f₂ _ p₂ hf₂ hr₂
  have hne : (p₂ == p₁) = false := by
    simp [Ne.symm hp]
  have e1 : (p₂ :: p₁ :: c.pending).erase p₁ = p₂ :: c.pending := by
    simp [List.erase_cons, hne]
  have h3 : stepC (n + 1) (CEvent.resolve p₁ v₁)
        { c with pending := p₂ :: p₁ :: c.pending }
      = some (.ok { c with
          currentValue := v₁
          notifs := c.notifs ++ c.subscribers.map (fun s => (s, v₁))
          pending := p₂ :: c.pending }) := by
    simp [stepC, e1, setValueF_direct n v₁
      { c with pending := p₂ :: c.pending } hv₁]
  have h4 : stepC (n + 1) (CEvent.resolve p₂ v₂)
        { c with
          currentValue := v₁
          notifs := c.notifs ++ c.subscribers.map (fun s => (s, v₁))
          pending := p₂ :: c.pending }
      = some (.ok { c with
          currentValue := v₂
          notifs := (c.notifs ++ c.subscribers.map (fun s => (s, v₁)))
            ++ c.subscribers.map (fun s => (s, v₂))
          pending := c.pending }) := by
    simp [stepC, List.erase_cons, setValueF_direct n v₂
      { c with
        currentValue := v₁
        notifs := c.notifs ++ c.subscribers.map (fun s => (s, v₁))
        pending := c.pending } hv₂]
  have h3' : stepC (n + 1) (CEvent.resolve p₂ v₂)
        { c with pending := p₂ :: p₁ :: c.pending }
      = some (.ok { c with
          currentValue := v₂
          notifs := c.notifs ++ c.subscribers.map (fun s => (s, v₂))
          pending := p₁ :: c.pending }) := by
    simp [stepC, List.erase_cons, setValueF_direct n v₂
      { c with pending := p₁ :: c.pending } hv₂]
  have h4' : stepC (n + 1) (CEvent.resolve p₁ v₁)
        { c with
          currentValue := v₂
          notifs := c.notifs ++ c.subscribers.map (fun s => (s, v₂))
          pending := p₁ :: c.pending }
      = some (.ok { c with
          currentValue := v₁
          notifs := (c.notifs ++ c.subscribers.map (fun s => (s, v₂)))
            ++ c.subscribers.map (fun s => (s, v₁))
          pending := c.pending }) := by
    simp [stepC, List.erase_cons, setValueF_direct n v₁
      { c with
        currentValue := v₂
        notifs := c.notifs ++ c.subscribers.map (fun s => (s, v₂))
        pending := c.pending } hv₁]
  refine ⟨?_, ?_, ?_⟩
  · simp [runC, h1, h2]
  · simp [runC, h1, h2, h3, h4]
  · simp [runC, h1, h2, h3', h4']

/-- Witness for C5: two functional sets returning thenables 1 and 2 on a
cell with one subscriber, resolved in both orders. -/
theorem pending_resolutions_independent_witness :
    (isFunction (vFuncConst (vObj 1 true)) = true
      ∧ isFunction (vFuncConst (vObj 2 true)) = true
      ∧ applyFn (vFuncConst (vObj 1 true))
          (getValue { currentValue := vNum 0, subscribers := [7],
                      notifs := [], pending := [], renders := 0 }) = vObj 1 true
      ∧ applyFn (vFuncConst (vObj 2 true))
          (getValue { currentValue := vNum 0, subscribers := [7],
                      notifs := [], pending := [], renders := 0 }) = vObj 2 true
      ∧ (1 : Nat) ≠ 2
      ∧ isFunction (vNum 10) = false
      ∧ isFunction (vNum 20) = false)
    ∧ runC 1 [CEvent.setCall (vFuncConst (vObj 1 true)),
          CEvent.setCall (vFuncConst (vObj 2 true)),
          CEvent.resolve 1 (vNum 10), CEvent.resolve 2 (vNum 20)]
        { currentValue := vNum 0, subscribers := [7], notifs := [],
          pending := [], renders := 0 }
      = some (.ok { currentValue := vNum 20, subscribers := [7],
                    notifs := ([] ++ [7].map (fun s => (s, vNum 10)))
                      ++ [7].map (fun s => (s, vNum 20)),
                    pending := [], renders := 0 }) := by
  have h := pending_resolutions_independent
    { currentValue := vNum 0, subscribers := [7], notifs := [],
      pending := [], renders := 0 }
    (vFuncConst (vObj 1 true)) (vFuncConst (vObj 2 true)) 1 2
    (vNum 10) (vNum 20) 0
    (by decide) (by decide) (by decide) (by decide) (by decide)
    (by decide) (by decide)
  exact ⟨⟨by decide, by decide, by decide, by decide, by decide,
    by decide, by decide⟩, h.2.1⟩

/-- Witness for C9: a transformation returning thenable 1 on a fresh
cell, followed by its rejection. -/
theorem rejected_resolution_has_no_effect_witness :
    (isFunction (vFuncConst (vObj 1 true)) = true
      ∧ applyFn (vFuncConst (vObj 1 true)) (getValue (mkCell (vNum 0)))
          = vObj 1 true)
    ∧ runC 1 [CEvent.setCall (vFuncConst (vObj 1 true)), CEvent.reject 1]
        (mkCell (vNum 0)) = some (.ok (mkCell (vNum 0))) :=
  ⟨⟨by decide, by decide⟩,
    rejected_resolution_has_no_effect (mkCell (vNum 0))
      (vFuncConst (vObj 1 true)) 1 0 (by decide) (by decide)⟩

/-- The setter `setValue` only ever appends to the notification log. -/
theorem setValueF_notifs_mono : ∀ (n : Nat) (v : JSVal) (c c' : Cell),
    setValueF n v c = some (.ok c') → ∃ d, c'.notifs = c.notifs ++ d := by
  intro n
  induction n with
  | zero =>
    intro v c c' h
    simp [setValueF] at h
  | succ n ih =>
    intro v c c' h
    simp only [setValueF] at h
    split at h
    · split at h
      · simp at h
      · simp only [Option.some.injEq, Except.ok.injEq] at h
        exact ⟨[], by rw [← h]; simp⟩
      · exact ih _ c c' h
    · simp only [Option.some.injEq, Except.ok.injEq] at h
      exact ⟨c.subscribers.map (fun s => (s, v)), by rw [← h]⟩

/-- Every cell event only ever appends to the notification log. -/
theorem stepC_notifs_mono (fuel : Nat) (e : CEvent) (c c' : Cell)
    (h : stepC fuel e c = some (.ok c')) :
    ∃ d, c'.notifs = c.notifs ++ d := by
  cases e with
  | setCall v => exact setValueF_notifs_mono fuel v c c' h
  | resolve pid v =>
    simp only [stepC] at h
    split at h
    · obtain ⟨d, hd⟩ := setValueF_notifs_mono fuel v
        { c with pending := c.pending.erase pid } c' h
      exact ⟨d, hd⟩
    · simp only [Option.some.injEq, Except.ok.injEq] at h
      exact ⟨[], by rw [← h]; simp⟩
  | reject pid =>
    simp only [stepC, Option.some.injEq, Except.ok.injEq] at h
    exact ⟨[], by rw [← h]; simp⟩
  | subscribe sid =>
    simp only [stepC, Option.some.injEq, Except.ok.injEq] at h
    exact ⟨[(sid, c.currentValue)], by rw [← h]⟩
  | unsubscribe sid =>
    simp only [stepC, Option.some.injEq, Except.ok.injEq] at h
    exact ⟨[], by rw [← h]; simp⟩

/-- A whole event run only ever appends to the notification log. -/
theorem runC_notifs_mono : ∀ (evs : List CEvent) (fuel : Nat) (c c' : Cell),
    runC fuel evs c = some (.ok c') → ∃ d, c'.notifs = c.notifs ++ d := by
  intro evs
  induction evs with
  | nil =>
    intro fuel c c' h
    simp only [runC, Option.some.injEq, Except.ok.injEq] at h
    exact ⟨[], by rw [← h]; simp⟩
  | cons e evs ih =>
    intro fuel c c' h
    simp only [runC] at h
    split at h
    next c₁ heq =>
      obtain ⟨d₁, h₁⟩ := stepC_notifs_mono fuel e c c₁ heq
      obtain ⟨d₂, h₂⟩ := ih fuel c₁ c' h
      exact ⟨d₁ ++ d₂, by rw [h₂, h₁, List.append_assoc]⟩
    next => simp at h
    next => simp at h

/-- C3: a new subscriber synchronously receives the cell's current value
as its first notification (`subscriber.next(currentValue)` runs at
subscription time, lines 115–117), before any notification any later
event may deliver to it — and with no set call needed since the cell was
created. -/
theorem replay_on_subscribe (c : Cell) (sid : Nat) (evs : List CEvent)
    (fuel : Nat) (c' : Cell)
    (hfresh : notifValuesFor sid c = [])
    (hrun : runC fuel (CEvent.subscribe sid :: evs) c = some (.ok c')) :
    ∃ rest, notifValuesFor sid c' = getValue c :: rest := by
  have hfil : c.notifs.filter (fun p => p.1 = sid) = [] := by
    have h := hfresh
    unfold notifValuesFor at h
    exact List.map_eq_nil_iff.mp h
  have hstep : stepC fuel (CEvent.subscribe sid) c = some (.ok { c with
      notifs := c.notifs ++ [(sid, c.currentValue)]
      subscribers :=
        if sid ∈ c.subscribers then c.subscribers
        else c.subscribers ++ [sid] }) := rfl
  rw [runC, hstep] at hrun
  obtain ⟨d, hd⟩ := runC_notifs_mono evs fuel _ c' hrun
  refine ⟨(d.filter (fun p => p.1 = sid)).map (fun p => p.2), ?_⟩
  unfold notifValuesFor
  rw [hd]
  simp only [List.filter_append, hfil, List.map_append, List.map_nil,
    List.nil_append, getValue]
  simp

/-- Witness for C3: subscribing to a freshly created cell initialised
with `42`, with no set call at all, delivers `42` first. -/
theorem replay_on_subscribe_witness :
    notifValuesFor 0 (mkCell (vNum 42)) = []
    ∧ runC 1 [CEvent.subscribe 0] (mkCell (vNum 42))
        = some (.ok { currentValue := vNum 42, subscribers := [0],
                      notifs := [(0, vNum 42)], pending := [], renders := 0 })
    ∧ ∃ rest, notifValuesFor 0
        { currentValue := vNum 42, subscribers := [0],
          notifs := [(0, vNum 42)], pending := [], renders := 0 }
        = getValue (mkCell (vNum 42)) :: rest :=
  ⟨rfl, rfl,
    replay_on_subscribe (mkCell (vNum 42)) 0 [] 1
      { currentValue := vNum 42, subscribers := [0],
        notifs := [(0, vNum 42)], pending := [], renders := 0 }
      rfl rfl⟩

/-- The assignment `currentValue = value` only happens in the `else`
branch of `setValue`, where `isFunction(value)` just failed: whenever a
set terminates, the stored value is a non-function or the value is
untouched (pending registration). -/
theorem setValueF_stores_nonfunction : ∀ (n : Nat) (v : JSVal) (c c' : Cell),
    setValueF n v c = some (.ok c') →
    isFunction c'.currentValue = false ∨ c'.currentValue = c.currentValue := by
  intro n
  induction n with
  | zero =>
    intro v c c' h
    simp [setValueF] at h
  | succ n ih =>
    intro v c c' h
    simp only [setValueF] at h
    split at h
    · split at h
      · simp at h
      · simp only [Option.some.injEq, Except.ok.injEq] at h
        exact Or.inr (by rw [← h])
      · exact ih _ c c' h
    · simp only [Option.some.injEq, Except.ok.injEq] at h
      next hnf =>
        left
        rw [← h]
        simpa using hnf

/-- Every cell event preserves "the current value is not a function". -/
theorem stepC_preserves_nonfunction (fuel : Nat) (e : CEvent) (c c' : Cell)
    (h : stepC fuel e c = some (.ok c'))
    (hc : isFunction c.currentValue = false) :
    isFunction c'.currentValue = false := by
  cases e with
  | setCall v =>
    rcases setValueF_stores_nonfunction fuel v c c' h with h' | h'
    · exact h'
    · rw [h']; exact hc
  | resolve pid v =>
    simp only [stepC] at h
    split at h
    · rcases setValueF_stores_nonfunction fuel v
        { c with pending := c.pending.erase pid } c' h with h' | h'
      · exact h'
      · rw [h']; exact hc
    · simp only [Option.some.injEq, Except.ok.injEq] at h
      rw [← h]; exact hc
  | reject pid =>
    simp only [stepC, Option.some.injEq, Except.ok.injEq] at h
    rw [← h]; exact hc
  | subscribe sid =>
    simp only [stepC, Option.some.injEq, Except.ok.injEq] at h
    rw [← h]; exact hc
  | unsubscribe sid =>
    simp only [stepC, Option.some.injEq, Except.ok.injEq] at h
    rw [← h]; exact hc

/-- A whole event run preserves "the current value is not a function". -/
theorem runC_preserves_nonfunction : ∀ (evs : List CEvent) (fuel : Nat)
    (c c' : Cell), runC fuel evs c = some (.ok c') →
    isFunction c.currentValue = false →
    isFunction c'.currentValue = false := by
  intro evs
  induction evs with
  | nil =>
    intro fuel c c' h hc
    simp only [runC, Option.some.injEq, Except.ok.injEq] at h
    rw [← h]; exact hc
  | cons e evs ih =>
    intro fuel c c' h hc
    simp only [runC] at h
    split at h
    next c₁ heq => exact ih fuel c₁ c' h (stepC_preserves_nonfunction fuel e c c₁ heq hc)
    next => simp at h
    next => simp at h

/-- C10: starting from a non-function initial value, no sequence of
setter calls, pending resolutions, subscriptions or unsubscriptions can
make the getter return a function — a function handed to the setter
(directly, as a transformation's return value, or as a resolved thenable
value) is always re-invoked as a transformation of the current value,
never stored (second conjunct: a terminating `setValue` either stores a
non-function or leaves the value untouched). -/
theorem getter_never_returns_function (i : JSVal) (evs : List CEvent)
    (fuel : Nat) (c' : Cell)
    (hi : isFunction i = false)
    (hrun : runC fuel evs (mkCell i) = some (.ok c')) :
    isFunction (getValue c') = false
    ∧ ∀ (m : Nat) (v : JSVal) (d d' : Cell),
        setValueF m v d = some (.ok d') →
        isFunction d'.currentValue = false ∨ d'.currentValue = d.currentValue :=
  ⟨runC_preserves_nonfunction evs fuel (mkCell i) c' hrun hi,
    setValueF_stores_nonfunction⟩

/-- Witness for C10: the set call `setValue((_) => ((p) => p))` — a
transformation returning a function — re-invokes the returned function on
the current value `0` and finally stores `0`, not a function. -/
theorem getter_never_returns_function_witness :
    (isFunction (vNum 0) = false
      ∧ runC 3 [CEvent.setCall (vFuncConst vFuncId)] (mkCell (vNum 0))
          = some (.ok (mkCell (vNum 0))))
    ∧ isFunction (getValue (mkCell (vNum 0))) = false
    ∧ ∀ (m : Nat) (v : JSVal) (d d' : Cell),
        setValueF m v d = some (.ok d') →
        isFunction d'.currentValue = false ∨ d'.currentValue = d.currentValue := by
  refine ⟨⟨by decide, rfl⟩, ?_⟩
  exact getter_never_returns_function (vNum 0)
    [CEvent.setCall (vFuncConst vFuncId)] 3 (mkCell (vNum 0))
    (by decide) rfl

/-- Running renders from a state that retains handle `h` (with `h + 1`
the next fresh handle and `dprev` the last committed list) and then
unmounting appends exactly the claim's release/resetup interleaving. -/
theorem runFrom (ds : List (List JSVal)) :
    ∀ (dprev : List JSVal) (h : Nat) (E : List SubEvent),
    (unmountStep (ds.foldl (fun s d => renderStep d s)
        ⟨some dprev, some h, h + 1, E⟩)).events
      = E ++ claimTail h (countChangesFrom dprev ds) := by
  induction ds with
  | nil =>
    intro dprev h E
    simp [unmountStep, claimTail, countChangesFrom]
  | cons d ds ih =>
    intro dprev h E
    cases hd : depsEqual dprev d with
    | true =>
      have hr : renderStep d ⟨some dprev, some h, h + 1, E⟩
          = ⟨some d, some h, h + 1, E⟩ := by
        simp [renderStep, hd]
      simp only [List.foldl_cons, hr, ih d h E, countChangesFrom, hd,
        if_true, Nat.zero_add]
    | false =>
      have hr : renderStep d ⟨some dprev, some h, h + 1, E⟩
          = ⟨some d, some (h + 1), (h + 1) + 1,
              E ++ [SubEvent.unsub h, SubEvent.setup (h + 1)]⟩ := by
        simp [renderStep, hd]
      simp only [List.foldl_cons, hr,
        ih d (h + 1) (E ++ [SubEvent.unsub h, SubEvent.setup (h + 1)]),
        countChangesFrom, hd, if_false]
      rw [if_neg (by simp), Nat.add_comm 1 (countChangesFrom d ds)]
      simp [claimTail]

/-- C1: over any nonempty sequence of committed renders followed by
unmount, the observable setup/release history is exactly the claim's
trace: `setup 0` on first activation, then — for each dependency-list
change (position-wise comparison) — exactly one release of the handle the
previous setup returned immediately followed by the next setup, and a
final single release on teardown.  Renders whose dependency list did not
change contribute nothing. -/
theorem useSubscription_lifecycle (d : List JSVal) (ds : List (List JSVal)) :
    (runLifecycle (d :: ds)).events = claimTrace (countChanges (d :: ds)) := by
  have h0 : renderStep d initEff
      = ⟨some d, some 0, 1, [SubEvent.setup 0]⟩ := by
    simp [renderStep, initEff]
  calc (runLifecycle (d :: ds)).events
      = (unmountStep (ds.foldl (fun s d => renderStep d s)
          ⟨some d, some 0, 1, [SubEvent.setup 0]⟩)).events := by
        simp only [runLifecycle, List.foldl_cons, h0]
    _ = [SubEvent.setup 0] ++ claimTail 0 (countChangesFrom d ds) :=
        runFrom ds d 0 [SubEvent.setup 0]
    _ = claimTrace (countChanges (d :: ds)) := by
        simp [claimTrace, countChanges]

/-- Once a subscription is closed it stays closed through any event. -/
theorem stepA_closed_mono (e : AEvent) (st : AsyncSt) (k : Nat)
    (hk : k ∈ st.closed) : k ∈ (stepA e st).closed := by
  cases e with
  | render deps =>
    simp only [stepA]
    split
    · cases h : st.active with
      | none => simpa [h] using hk
      | some j => simp [h, List.mem_cons]; right; exact hk
    · exact hk
  | emit j v =>
    simp only [stepA]
    split
    · exact hk
    · exact hk
  | unmount =>
    simp only [stepA]
    cases h : st.active with
    | none => simpa [h] using hk
    | some j => simp [h, List.mem_cons]; right; exact hk

/-- An emission of a closed (torn-down) subscription is a complete no-op:
the closed safe subscriber drops the `next` call, so `setValue` never
runs. -/
theorem stepA_emit_closed (st : AsyncSt) (k : Nat) (v : JSVal)
    (hk : k ∈ st.closed) : stepA (AEvent.emit k v) st = st := by
  simp only [stepA]
  rw [if_neg]
  intro h
  exact h.2 hk

/-- Relative to a state where subscription `k` is closed, a run behaves
exactly as if every emission of source `k` had never happened. -/
theorem runA_discards_closed : ∀ (evs : List AEvent) (st : AsyncSt) (k : Nat),
    k ∈ st.closed →
    runA evs st = runA (evs.filter (fun e => !isEmitOf k e)) st := by
  intro evs
  induction evs with
  | nil => intro st k _; rfl
  | cons e evs ih =>
    intro st k hk
    by_cases he : isEmitOf k e = true
    · cases e with
      | emit j v =>
        have hj : j = k := by simpa [isEmitOf] using he
        subst hj
        rw [List.filter_cons_of_neg (by simp [he])]
        show runA evs (stepA (AEvent.emit j v) st) = _
        rw [stepA_emit_closed st j v hk]
        exact ih st j hk
      | render deps => simp [isEmitOf] at he
      | unmount => simp [isEmitOf] at he
    · rw [List.filter_cons_of_pos (by simp [he])]
      show runA evs (stepA e st) = runA (List.filter _ evs) (stepA e st)
      exact ih (stepA e st) k (stepA_closed_mono e st k hk)

/-- C2: once teardown of subscription `k` has begun (`k` is in the closed
set, because the dependency list changed or the component unmounted), no
emission of source `k` — however late it arrives, e.g. a deferred value
resolving afterwards — is ever written to the hook's rendered state: the
whole remaining run, rendered value included, is the same as if those
emissions were dropped from the event sequence. -/
theorem superseded_emissions_never_reach_state
    (st : AsyncSt) (k : Nat) (hk : k ∈ st.closed) :
    (∀ v, stepA (AEvent.emit k v) st = st)
    ∧ ∀ evs, runA evs st = runA (evs.filter (fun e => !isEmitOf k e)) st :=
  ⟨fun v => stepA_emit_closed st k v hk,
    fun evs => runA_discards_closed evs st k hk⟩

/-- Witness for C2: after a mount on deps `[0]` and a dependency change
to `[1]`, subscription 0 is closed; a late emission of source 0 changes
nothing. -/
theorem superseded_emissions_never_reach_state_witness :
    (0 : Nat) ∈ (runA [AEvent.render [vNum 1]]
        (initAsync vUndef [vNum 0])).closed
    ∧ ((∀ v, stepA (AEvent.emit 0 v)
          (runA [AEvent.render [vNum 1]] (initAsync vUndef [vNum 0]))
        = runA [AEvent.render [vNum 1]] (initAsync vUndef [vNum 0]))
      ∧ ∀ evs, runA evs
            (runA [AEvent.render [vNum 1]] (initAsync vUndef [vNum 0]))
          = runA (evs.filter (fun e => !isEmitOf 0 e))
            (runA [AEvent.render [vNum 1]] (initAsync vUndef [vNum 0]))) :=
  ⟨by decide,
    superseded_emissions_never_reach_state
      (runA [AEvent.render [vNum 1]] (initAsync vUndef [vNum 0])) 0
      (by decide)⟩

/-- Counterexample to C4 as stated: mount with no configured initial
value (`undefined`) and deps `[0]`; stream 0 emits `5`; the deps change
to `[1]`, tearing stream 0 down and starting stream 1.  The trace
contains no emission of the now-current stream 1, yet the hook renders
`5`, not the initial value `undefined`: the previous stream's last value
persists across the dependency change (`useState` is never reset). -/
theorem stale_value_after_deps_change :
    (runA [AEvent.emit 0 (vNum 5), AEvent.render [vNum 1]]
        (initAsync vUndef [vNum 0])).active = some 1
    ∧ (runA [AEvent.emit 0 (vNum 5), AEvent.render [vNum 1]]
        (initAsync vUndef [vNum 0])).value = vNum 5
    ∧ vNum 5 ≠ vUndef
    ∧ [AEvent.emit 0 (vNum 5), AEvent.render [vNum 1]].filter
        (fun e => isEmitOf 1 e) = [] := by
  refine ⟨by decide, by decide, by decide, by decide⟩

/-- Every step either delivers an emission — appending it to the ghost
log and overwriting the rendered value with it — or touches neither. -/
theorem stepA_value_written (e : AEvent) (st : AsyncSt) :
    ((stepA e st).value = st.value ∧ (stepA e st).written = st.written)
    ∨ ∃ v, (stepA e st).value = v ∧ (stepA e st).written = st.written ++ [v] := by
  cases e with
  | render deps =>
    left
    simp only [stepA]
    split
    · exact ⟨rfl, rfl⟩
    · exact ⟨rfl, rfl⟩
  | emit j v =>
    simp only [stepA]
    split
    · right; exact ⟨v, rfl, rfl⟩
    · left; exact ⟨rfl, rfl⟩
  | unmount => left; exact ⟨rfl, rfl⟩

/-- C4 (amended): the hook renders the most recently delivered emission
— the last value actually handed to its state setter by a subscription
that was open at delivery time — and, when nothing has been delivered
yet, the configured initial value (`undefined` when no `initialValue` was
configured).  In particular a superseded stream's last value persists
across a dependency change until the new stream emits. -/
theorem value_is_last_delivered_or_initial (i : JSVal) (d : List JSVal) :
    ∀ (evs : List AEvent),
    (runA evs (initAsync i d)).value
      = (runA evs (initAsync i d)).written.getLastD i := by
  suffices h : ∀ (evs : List AEvent) (st : AsyncSt),
      st.value = st.written.getLastD i →
      (runA evs st).value = (runA evs st).written.getLastD i by
    intro evs
    exact h evs (initAsync i d) rfl
  intro evs
  induction evs with
  | nil => intro st hst; exact hst
  | cons e evs ih =>
    intro st hst
    show (runA evs (stepA e st)).value = (runA evs (stepA e st)).written.getLastD i
    refine ih (stepA e st) ?_
    rcases stepA_value_written e st with ⟨hv, hw⟩ | ⟨v, hv, hw⟩
    · rw [hv, hw]; exact hst
    · rw [hv, hw, List.getLastD_concat]

end Rxooks
